import Mathlib

/-!
Shallow embedding of `src/ecvrf/src/lib.rs` (crate `ecvrf` of vuvoth/orochimaru):
the ECVRF engine over secp256k1 with a Keccak-256 Fiat-Shamir transform.

Modelling conventions:

* Scalars (libsecp256k1 `Scalar`): integers modulo the secp256k1 group order
  `nOrder`, embedded as `ZMod nOrder`.  All libsecp256k1 scalar arithmetic is
  performed modulo the group order, so `+`, `*`, `-` on `ZMod nOrder` are the
  exact semantics of the library operations used by the source.
* Curve points (libsecp256k1 `Affine` / `Jacobian` holding an on-curve point):
  an abstract type `Point` with an `AddCommGroup` structure and a scalar action
  of `ZMod nOrder` (a `Module`), which is the interface `lib.rs` consumes from
  the external library: `ecmult` / `ecmult_gen` are scalar multiplication,
  `add_ge` is point addition, and jacobian-to-affine conversion together with
  coordinate normalization does not change the group element, so it is the
  identity in this model.  The secp256k1 group has prime order `nOrder`, so the
  `ZMod nOrder` action is faithful to the library.
* Coordinate serialization (`Affine::x.b32()` / `Affine::y.b32()` after
  `normalize`): abstract functions `xB`, `yB` from points to byte lists,
  standing for the 32-byte canonical big-endian field-element encodings.
* `tiny_keccak::Keccak::v256()`: the sponge state is modelled as the list of
  bytes absorbed so far (`update` appends, as in the streaming API), and
  `finalize` applies an abstract digest function `keccak`.
* The `assert!` calls in `verify` are modelled by an explicit `Except` error:
  a Rust `assert!` failure aborts (panics in) the calling process.
-/

namespace OrochiECVRF

/-- The secp256k1 group order `n` (the modulus of libsecp256k1 `Scalar`
arithmetic). -/
def nOrder : ℕ :=
  0xFFFFFFFFFFFFFFFFFFFFFFFFFFFFFFFEBAAEDCE6AF48A03BBFD25E8CD0364141

/-- libsecp256k1 `Scalar`: an integer modulo the secp256k1 group order. -/
abbrev Scalar : Type := ZMod nOrder

/-- A byte. -/
abbrev Byte : Type := Fin 256

/-- Big-endian interpretation of a byte string as a natural number (the
integer denoted by the 32-byte big-endian digest). -/
def bytesToNat (bs : List Byte) : ℕ :=
  bs.foldl (fun acc b => 256 * acc + b.val) 0

/-- libsecp256k1 `Scalar::set_b32`: interpret 32 big-endian bytes as an
integer and reduce it modulo the group order (the overflow flag returned by
the library is discarded by the source via `unwrap_u8`). -/
def scalarSetB32 (bs : List Byte) : Scalar :=
  (bytesToNat bs : ZMod nOrder)

/-- The interface of the external libsecp256k1 / tiny_keccak libraries as
consumed by `lib.rs`, over an abstract group `Point` of on-curve points:
the generator `G` (`AFFINE_G`), the Keccak-256 digest function, the 32-byte
canonical big-endian coordinate encodings `xB` / `yB` (`Affine::b32` after
`normalize`), and the on-curve validity check `is_valid_var` restricted to
this type.  Scalar multiplication and point addition are the `Module`
structure. -/
structure CurveCtx (Point : Type) [AddCommGroup Point] [Module Scalar Point] where
  G : Point
  keccak : List Byte → List Byte
  xB : Point → List Byte
  yB : Point → List Byte
  isValid : Point → Bool

variable {Point : Type} [AddCommGroup Point] [Module Scalar Point]

/-- tiny_keccak streaming state: the bytes absorbed so far; `Keccak::v256()`
starts empty. -/
def keccakNew : List Byte := []

/-- tiny_keccak `Hasher::update`: absorb more bytes. -/
def keccakUpdate (st : List Byte) (data : List Byte) : List Byte :=
  st ++ data

/-- tiny_keccak `Hasher::finalize`: the Keccak-256 digest of all absorbed
bytes. -/
def keccakFinalize (C : CurveCtx Point) (st : List Byte) : List Byte :=
  C.keccak st

/-- The byte contribution of one point inside `hash_points`: its 32-byte
big-endian x-coordinate followed by its 32-byte big-endian y-coordinate. -/
def pointBytes (C : CurveCtx Point) (p : Point) : List Byte :=
  C.xB p ++ C.yB p

/-- Modelled from the spec: helper `normalize_scalar` (in `ecvrf/src/helper.rs`,
not under `src/`).  Per the spec, scalars are always kept in reduced canonical
form; on a `ZMod nOrder` value reduction is the identity. -/
def normalize_scalar (s : Scalar) : Scalar := s

/-- Modelled from the spec: helper `keccak256_affine` (in
`ecvrf/src/helper.rs`, not under `src/`).  Spec 4.4: the 32-byte Keccak-256
digest of `gamma.x || gamma.y` (canonical big-endian encodings,
concatenated). -/
def keccak256_affine (C : CurveCtx Point) (p : Point) : List Byte :=
  C.keccak (C.xB p ++ C.yB p)

/-- Modelled from the spec: the proof value type `ECVRFProof` (in
`ecvrf/src/ecproof.rs`, not under `src/`).  Spec 3 VRFProof:
`gamma` curve point, `c` and `s` reduced scalars, 32-byte `y` (the output),
and the embedded public key; `ECVRFProof::new` is the plain constructor. -/
structure ECVRFProof (Point : Type) where
  gamma : Point
  c : Scalar
  s : Scalar
  y : List Byte
  pk : Point

/-- The `ECVRF` engine struct of `lib.rs` (lines 23-28): a secret key and the
derived public key (the borrowed multiplication contexts are process-wide
immutable tables and have no observable state, so they are omitted). -/
structure ECVRF (Point : Type) where
  secret_key : Scalar
  public_key : Point

/-- `ECVRF::new` (lib.rs lines 31-38): stores the secret key and derives the
public key via `PublicKey::from_secret_key`, i.e. `secret_key * G`. -/
def ECVRF.new (C : CurveCtx Point) (secret_key : Scalar) : ECVRF Point :=
  { secret_key := secret_key
    public_key := secret_key • C.G }

/-- `ECVRF::hash_to_curve` (lib.rs lines 40-55): `r = alpha * G` via
`ecmult_gen`; if a binding point is supplied the match arm reassigns
`r = r.add_ge(v)`; then `p.set_gej(&r)` converts to affine and both
coordinates are normalized (identity on the group element). -/
def ECVRF.hash_to_curve (C : CurveCtx Point) (alpha : Scalar)
    (y : Option Point) : Point :=
  let r : Point := alpha • C.G
  let r : Point :=
    match y with
    | some v => r + v
    | none => r
  r

/-- `ECVRF::hash_points` (lib.rs lines 58-79): feed the six points, in order,
each as x-bytes then y-bytes, into one Keccak-256 hasher; finalize; read the
digest into a `Scalar` with `set_b32`. -/
def ECVRF.hash_points (C : CurveCtx Point)
    (g h pk gamma kg kh : Point) : Scalar :=
  let all_points : List Point := [g, h, pk, gamma, kg, kh]
  let st : List Byte :=
    all_points.foldl
      (fun st point => keccakUpdate (keccakUpdate st (C.xB point)) (C.yB point))
      keccakNew
  let output : List Byte := keccakFinalize C st
  scalarSetB32 output

/-- `ECVRF::prove` (lib.rs lines 81-115), with the nonce `k` drawn by
`randomize()` made an explicit argument, and additionally returning the value
held by the local working copy `secret_key` at the (single) exit of the
function: the source calls `secret_key.clear()` (line 109), which zeroes the
scalar, before building the returned proof. -/
def ECVRF.proveTracked (C : CurveCtx Point) (e : ECVRF Point)
    (alpha : Scalar) (k : Scalar) : ECVRFProof Point × Scalar :=
  let pub_affine : Point := e.public_key
  let secret_key : Scalar := e.secret_key
  let h := ECVRF.hash_to_curve C alpha (some pub_affine)
  let gamma : Point := secret_key • h
  let kg : Point := k • C.G
  let kh : Point := k • h
  let c := ECVRF.hash_points C C.G h pub_affine gamma kg kh
  let neg_c := -c
  let s := normalize_scalar (k + neg_c * secret_key)
  let secret_key : Scalar := 0
  let y := keccak256_affine C gamma
  (⟨gamma, c, s, y, e.public_key⟩, secret_key)

/-- `ECVRF::prove`: the proof returned to the caller. -/
def ECVRF.prove (C : CurveCtx Point) (e : ECVRF Point)
    (alpha : Scalar) (k : Scalar) : ECVRFProof Point :=
  (ECVRF.proveTracked C e alpha k).1

/-- `ECVRF::verify` (lib.rs lines 117-159).  The two `assert!` calls
(lines 122-123) abort the process on failure; this is modelled by
`Except.error`.  The source binds `s * H` to a variable named `c_gamma` and
`c * gamma` to a variable named `s_h` (lines 138-139); the names are kept. -/
def ECVRF.verify (C : CurveCtx Point) (e : ECVRF Point)
    (alpha : Scalar) (vrf_proof : ECVRFProof Point) : Except String Bool :=
  let pub_affine : Point := e.public_key
  if C.isValid pub_affine then
    if C.isValid vrf_proof.gamma then
      let h := ECVRF.hash_to_curve C alpha (some pub_affine)
      let u : Point := vrf_proof.c • pub_affine + vrf_proof.s • C.G
      let c_gamma : Point := vrf_proof.s • h
      let s_h : Point := vrf_proof.c • vrf_proof.gamma
      let v : Point := c_gamma + s_h
      let computed_c := ECVRF.hash_points C C.G h pub_affine vrf_proof.gamma u v
      let computed_y := keccak256_affine C vrf_proof.gamma
      Except.ok (decide (computed_c = vrf_proof.c) && decide (computed_y = vrf_proof.y))
    else
      Except.error "assertion failed: vrf_proof.gamma.is_valid_var()"
  else
    Except.error "assertion failed: pub_affine.is_valid_var()"

/-! Raw affine points, for the validity check on attacker-supplied data.
A libsecp256k1 `Affine` as transported inside an `ECVRFProof` is just a pair
of field elements (plus an infinity flag) and need not lie on the curve; the
`assert!` at lib.rs line 123 is the only place `verify` looks at whether it
does. -/

/-- The secp256k1 base-field prime `p`. -/
def pField : ℕ :=
  0xFFFFFFFFFFFFFFFFFFFFFFFFFFFFFFFFFFFFFFFFFFFFFFFFFFFFFFFEFFFFFC2F

/-- A secp256k1 base-field element. -/
abbrev Fe : Type := ZMod pField

/-- A raw libsecp256k1 `Affine` value: two field elements and the infinity
flag, with no on-curve guarantee. -/
structure RawAffine where
  x : Fe
  y : Fe
  infinity : Bool

/-- libsecp256k1 `Affine::is_valid_var` on a (normalized) raw affine value:
false at infinity, otherwise the secp256k1 curve equation
`y^2 = x^3 + 7` over the base field. -/
def RawAffine.is_valid_var (p : RawAffine) : Bool :=
  if p.infinity then false
  else decide (p.y ^ 2 = p.x ^ 3 + 7)

/-- The entry of `ECVRF::verify` (lib.rs lines 117-123) at the raw level:
the engine normalizes its own public key and then executes
`assert!(pub_affine.is_valid_var())` and
`assert!(vrf_proof.gamma.is_valid_var())` before any other work; a failed
`assert!` aborts the calling process, modelled by `Except.error`. -/
def verifyEntry (pub_affine : RawAffine) (gamma : RawAffine) :
    Except String Unit :=
  if pub_affine.is_valid_var then
    if gamma.is_valid_var then
      Except.ok ()
    else
      Except.error "assertion failed: vrf_proof.gamma.is_valid_var()"
  else
    Except.error "assertion failed: pub_affine.is_valid_var()"

/-! A concrete instantiation of the abstract curve interface, used to
evaluate the theorems below at concrete inputs: the group is `ZMod nOrder`
itself (a module over itself), the generator is `1`, the digest function and
the coordinate encodings return fixed 32-byte strings, and every element of
the group type is a valid point (as in the faithful model, where the point
type carries exactly the on-curve points). -/

/-- Concrete curve context on `ZMod nOrder` for evaluating theorems. -/
def Cw : CurveCtx (ZMod nOrder) where
  G := 1
  keccak := fun _ => List.replicate 32 (0 : Byte)
  xB := fun _ => List.replicate 32 (0 : Byte)
  yB := fun _ => List.replicate 32 (0 : Byte)
  isValid := fun _ => true

/-- The secp256k1 generator `AFFINE_G` as a raw affine value (its canonical
coordinates). -/
def affineG : RawAffine :=
  { x := (0x79BE667EF9DCBBAC55A06295CE870B07029BFCDB2DCE28D959F2815B16F81798 : Fe)
    y := (0x483ADA7726A3C4655DA4FBFC0E1108A8FD17B448A68554199C47D08FFB10D4B8 : Fe)
    infinity := false }

/-- C5: `hash_to_curve(alpha, None)` is `alpha * G` and
`hash_to_curve(alpha, Some(p))` is `alpha * G + p` (the binding point is
actually added: the reassignment inside the match arm persists even though
the value of the match expression is discarded), in normalized affine
form. -/
theorem hash_to_curve_spec (C : CurveCtx Point) (alpha : Scalar) (p : Point) :
    ECVRF.hash_to_curve C alpha (some p) = alpha • C.G + p ∧
    ECVRF.hash_to_curve C alpha none = alpha • C.G := by
  exact ⟨rfl, rfl⟩

/-- C6: the `s` component of every proof returned by `prove` equals
`(k - c * secretKey) mod n`, where `k` is the nonce drawn in that call and
`c` the challenge computed in that call; the value lives in `ZMod nOrder`,
hence is in reduced canonical form. -/
theorem prove_s_spec (C : CurveCtx Point) (e : ECVRF Point)
    (alpha k : Scalar) :
    (ECVRF.prove C e alpha k).s =
      k - (ECVRF.prove C e alpha k).c * e.secret_key := by
  show normalize_scalar (k + -(ECVRF.prove C e alpha k).c * e.secret_key) =
    k - (ECVRF.prove C e alpha k).c * e.secret_key
  rw [normalize_scalar]
  ring

/-- C8: the `gamma` and `y` (output) fields of the proof returned by `prove`
do not depend on the drawn nonce `k`: two calls with the same engine and
`alpha` but different nonces return identical `gamma` and identical
output. -/
theorem prove_gamma_output_nonce_free (C : CurveCtx Point) (e : ECVRF Point)
    (alpha k1 k2 : Scalar) :
    (ECVRF.prove C e alpha k1).gamma = (ECVRF.prove C e alpha k2).gamma ∧
    (ECVRF.prove C e alpha k1).y = (ECVRF.prove C e alpha k2).y := by
  exact ⟨rfl, rfl⟩

/-- C9: at the (single) exit of `prove` the working copy of the secret
scalar holds zero: `secret_key.clear()` runs before the return value is
built, and `prove` has no other exit path (it is a total function into
`ECVRFProof`, with no early failure return). -/
theorem prove_secret_cleared (C : CurveCtx Point) (e : ECVRF Point)
    (alpha k : Scalar) :
    (ECVRF.proveTracked C e alpha k).2 = 0 := rfl

/-- C10: `verify` never reads the public-key field embedded in the supplied
proof; it uses only the public key held by the engine, so two proofs differing
only in the embedded public key verify identically. -/
theorem verify_ignores_embedded_pk (C : CurveCtx Point) (e : ECVRF Point)
    (alpha : Scalar) (gamma : Point) (c s : Scalar) (y : List Byte)
    (pk1 pk2 : Point) :
    ECVRF.verify C e alpha ⟨gamma, c, s, y, pk1⟩ =
    ECVRF.verify C e alpha ⟨gamma, c, s, y, pk2⟩ := rfl

/-- C2: `verify` on a proof whose `gamma` does not satisfy the curve
equation does not return false: the `assert!` at lib.rs line 123 aborts the
calling process (here: the error branch), contradicting the never-panics
requirement.  The engine public key is the genuine generator, so the first
assert passes and the abort is caused by the supplied `gamma = (0, 0)`. -/
theorem verify_aborts_on_invalid_gamma :
    verifyEntry affineG ⟨0, 0, false⟩ =
      Except.error "assertion failed: vrf_proof.gamma.is_valid_var()" := by
  rfl

/-- C3: `hash_points` is the single Keccak-256 digest of the 384-byte
concatenation of, for each of the six points in the order
`g, h, pk, gamma, kg, kh`, its 32-byte big-endian x-coordinate followed by
its 32-byte big-endian y-coordinate, the digest then being read as a scalar
by the byte-to-scalar reduction `set_b32` (reduce mod the group order).
The 32-byte-encoding hypotheses pin the length of the hashed message. -/
theorem hash_points_spec (C : CurveCtx Point)
    (hx : ∀ p : Point, (C.xB p).length = 32)
    (hy : ∀ p : Point, (C.yB p).length = 32)
    (g h pk gamma kg kh : Point) :
    ECVRF.hash_points C g h pk gamma kg kh =
      scalarSetB32 (C.keccak
        (pointBytes C g ++ pointBytes C h ++ pointBytes C pk ++
          pointBytes C gamma ++ pointBytes C kg ++ pointBytes C kh)) ∧
    (pointBytes C g ++ pointBytes C h ++ pointBytes C pk ++
      pointBytes C gamma ++ pointBytes C kg ++ pointBytes C kh).length = 384 := by
  constructor
  · simp [ECVRF.hash_points, keccakUpdate, keccakNew, keccakFinalize,
      pointBytes, List.foldl, List.append_assoc]
  · simp [pointBytes, List.length_append, hx, hy]

/-- C3 witness: the equality and the 384-byte length evaluated in the
concrete context `Cw` at six copies of the zero element. -/
theorem hash_points_spec_witness :
    (ECVRF.hash_points Cw 0 0 0 0 0 0 =
      scalarSetB32 (Cw.keccak
        (pointBytes Cw 0 ++ pointBytes Cw 0 ++ pointBytes Cw 0 ++
          pointBytes Cw 0 ++ pointBytes Cw 0 ++ pointBytes Cw 0)) ∧
    (pointBytes Cw 0 ++ pointBytes Cw 0 ++ pointBytes Cw 0 ++
      pointBytes Cw 0 ++ pointBytes Cw 0 ++ pointBytes Cw 0).length = 384) :=
  hash_points_spec Cw (fun _ => by simp [Cw]) (fun _ => by simp [Cw]) 0 0 0 0 0 0

/-- C7: when the two validity asserts pass, `verify` accepts exactly when
the challenge recomputed over `(G, H, publicKey, gamma, U, V)` — with
`H = hash_to_curve(alpha, publicKey)`, `U = c * publicKey + s * G` and
`V = s * H + c * gamma` — equals the proof challenge `c`, and the output
recomputed over `gamma` equals the proof output. -/
theorem verify_spec (C : CurveCtx Point) (e : ECVRF Point) (alpha : Scalar)
    (pf : ECVRFProof Point)
    (hpk : C.isValid e.public_key = true)
    (hg : C.isValid pf.gamma = true) :
    ECVRF.verify C e alpha pf = Except.ok true ↔
      (ECVRF.hash_points C C.G (ECVRF.hash_to_curve C alpha (some e.public_key))
          e.public_key pf.gamma
          (pf.c • e.public_key + pf.s • C.G)
          (pf.s • ECVRF.hash_to_curve C alpha (some e.public_key) + pf.c • pf.gamma)
        = pf.c ∧
       keccak256_affine C pf.gamma = pf.y) := by
  simp [ECVRF.verify, hpk, hg]

/-- C7 witness: in the concrete context `Cw`, the all-zero proof with the
all-zero output satisfies both recomputed equalities, and `verify` indeed
returns true on it. -/
theorem verify_spec_witness :
    ECVRF.verify Cw (ECVRF.new Cw 0) 0
      ⟨0, 0, 0, List.replicate 32 (0 : Byte), 0⟩ = Except.ok true :=
  (verify_spec Cw (ECVRF.new Cw 0) 0
      ⟨0, 0, 0, List.replicate 32 (0 : Byte), 0⟩ rfl rfl).mpr
    ⟨by decide, by decide⟩

/-- Scalar-multiplication algebra used by the round-trip: the nonce
commitment `k * G` is recovered from `c * (sk * g) + s * g` when
`s = k - c * sk`. -/
theorem smul_u_eq (c k sk : Scalar) (g : Point) :
    c • sk • g + (k + -(c * sk)) • g = k • g := by
  rw [smul_smul, ← add_smul]
  congr 1
  ring

/-- Scalar-multiplication algebra used by the round-trip: the nonce
commitment `k * h` is recovered from `s * h + c * (sk * h)` when
`s = k - c * sk`. -/
theorem smul_v_eq (c k sk : Scalar) (h : Point) :
    (k + -(c * sk)) • h + c • sk • h = k • h := by
  rw [smul_smul, ← add_smul]
  congr 1
  ring

/-- A faithful concrete instantiation of the curve interface: the point
type is the cyclic group `ZMod nOrder` of the true group order (the real
secp256k1 group is cyclic of prime order `nOrder`), the generator is `1`,
the zero element stands for the point at infinity, and — as in
`RawAffine.is_valid_var`, which returns false at infinity —
`isValid q` holds exactly for `q ≠ 0`. -/
def Cf : CurveCtx (ZMod nOrder) where
  G := 1
  keccak := fun _ => List.replicate 32 (0 : Byte)
  xB := fun _ => List.replicate 32 (0 : Byte)
  yB := fun _ => List.replicate 32 (0 : Byte)
  isValid := fun q => decide (q ≠ 0)

/-- C1 counterexample: the round-trip claim fails as stated.  At secret key
`3` and input `alpha = -3` the hash point is
`H = alpha * G + pk = (alpha + sk) * G`, the point at infinity, so `prove`
returns `gamma = sk * H` = infinity, and `verify` aborts at the
`assert!(vrf_proof.gamma.is_valid_var())` of lib.rs line 123 (the infinity
point fails `is_valid_var`) instead of returning true. -/
theorem prove_verify_roundtrip_cex :
    ECVRF.verify Cf (ECVRF.new Cf 3) (-3)
      (ECVRF.prove Cf (ECVRF.new Cf 3) (-3) 7) =
      Except.error "assertion failed: vrf_proof.gamma.is_valid_var()" := by
  rfl

/-- C1 (amended): round-trip on non-degenerate inputs.  For every secret
key, input scalar, and nonce the random source may draw, if the two points
the code asserts on — the engine public key `sk * G` and the computed
`gamma = sk * H(alpha, pk)` — pass the validity check (in the real group:
`sk` is nonzero, as libsecp256k1 secret keys are, and `alpha + sk` is
nonzero mod `n`, so neither point is the point at infinity), then the
engine built from the secret key accepts the proof it produced:
`verify(alpha, prove(alpha)) = ok true`. -/
theorem prove_verify_roundtrip (C : CurveCtx Point) (sk alpha k : Scalar)
    (hpk : C.isValid ((ECVRF.new C sk).public_key) = true)
    (hg : C.isValid ((ECVRF.prove C (ECVRF.new C sk) alpha k).gamma) = true) :
    ECVRF.verify C (ECVRF.new C sk) alpha
      (ECVRF.prove C (ECVRF.new C sk) alpha k) = Except.ok true := by
  simp only [ECVRF.new, ECVRF.prove, ECVRF.proveTracked] at hpk hg
  simp [ECVRF.verify, ECVRF.prove, ECVRF.proveTracked, ECVRF.new,
    normalize_scalar, hpk, hg, smul_u_eq, smul_v_eq]

/-- C1 witness: the round-trip evaluated in the faithful concrete context
`Cf` at the secret key 3, input 5, and nonce 7, where both asserted points
are nonzero. -/
theorem prove_verify_roundtrip_witness :
    ECVRF.verify Cf (ECVRF.new Cf 3) 5
      (ECVRF.prove Cf (ECVRF.new Cf 3) 5 7) = Except.ok true :=
  prove_verify_roundtrip Cf 3 5 7 (by decide) (by decide)

/-- C4: the output field of every proof returned by `prove` is the
Keccak-256 digest of the concatenated coordinate encodings of its `gamma`,
and whenever `verify` accepts a supplied proof, the digest it recomputed
from that proof gamma in exactly the same way equals the proof output
field. -/
theorem prove_output_spec (C : CurveCtx Point) (e : ECVRF Point)
    (alpha k : Scalar) (pf : ECVRFProof Point)
    (hacc : ECVRF.verify C e alpha pf = Except.ok true) :
    (ECVRF.prove C e alpha k).y =
      C.keccak (C.xB (ECVRF.prove C e alpha k).gamma ++
        C.yB (ECVRF.prove C e alpha k).gamma) ∧
    C.keccak (C.xB pf.gamma ++ C.yB pf.gamma) = pf.y := by
  constructor
  · rfl
  · simp only [ECVRF.verify] at hacc
    split at hacc
    · split at hacc
      · simp only [Except.ok.injEq, Bool.and_eq_true, decide_eq_true_eq] at hacc
        exact hacc.2
      · exact absurd hacc (by simp)
    · exact absurd hacc (by simp)

/-- C4 witness: evaluated in the concrete context `Cw` with the engine of
secret key 0 and the all-zero proof, which `verify` accepts. -/
theorem prove_output_spec_witness :
    ((ECVRF.prove Cw (ECVRF.new Cw 0) 0 0).y =
      Cw.keccak (Cw.xB (ECVRF.prove Cw (ECVRF.new Cw 0) 0 0).gamma ++
        Cw.yB (ECVRF.prove Cw (ECVRF.new Cw 0) 0 0).gamma) ∧
    Cw.keccak (Cw.xB (0 : ZMod nOrder) ++ Cw.yB (0 : ZMod nOrder)) =
      List.replicate 32 (0 : Byte)) :=
  prove_output_spec Cw (ECVRF.new Cw 0) 0 0
    ⟨0, 0, 0, List.replicate 32 (0 : Byte), 0⟩ (by rfl)

end OrochiECVRF
